import Mathlib

/-!
Shallow embedding of the `txn` Go package (fixed-width bank-transaction file
codec): record types, their fixed-column `Read`/`Write` codecs, the whole-file
`Writer.Write` sequence with debit/credit aggregation, and the line-driven
`Reader.ReadAll`.  Go strings are modelled as `List Char`, `decimal.Decimal`
as `Rat` (the library performs exact rational arithmetic on decimal-scaled
values, and `Add`/`Sub`/`Abs`/`Sign` agree with the corresponding `Rat`
operations), Go `int` as `Int` (no claim here depends on 64-bit wrap-around,
which is unreachable for realizable inputs), and `time.Time` values as the
calendar date `yyyymmdd` they serialize to (only the `"20060102"` format is
ever used by the package).
-/

namespace Txn

/-- Go strings, as lists of characters. -/
abbrev Str := List Char

/-- `decimal.Decimal` (shopspring), embedded into the rationals. -/
abbrev Decimal := Rat

/-- Characters trimmed by Go's `strings.TrimSpace` (`unicode.IsSpace`). -/
def isSpaceGo (c : Char) : Bool :=
  c = ' ' || c = '\t' || c = '\n' || c = Char.ofNat 11 || c = Char.ofNat 12 ||
  c = '\r' || c = Char.ofNat 0x85 || c = Char.ofNat 0xA0

/-- Model of `strings.TrimSpace`. -/
def trimSpace (s : Str) : Str :=
  ((s.dropWhile isSpaceGo).reverse.dropWhile isSpaceGo).reverse

/-- Go slice expression `l[a:b]` (on the byte strings of this format all
characters are single bytes). -/
def slice (l : Str) (a b : Nat) : Str :=
  (l.drop a).take (b - a)

def allDigits (s : Str) : Bool := s.all (·.isDigit)

def digitsToNat (s : Str) : Nat :=
  s.foldl (fun a c => a * 10 + (c.toNat - 48)) 0

/-- Decimal digits of a natural number, via explicit fuel (`n + 1` steps
always suffice since the argument shrinks by a factor of ten). -/
def natDigitsAux : Nat → Nat → Str
  | 0, _ => []
  | fuel + 1, n =>
    if n < 10 then [Nat.digitChar n]
    else natDigitsAux fuel (n / 10) ++ [Nat.digitChar (n % 10)]

def natDigits (n : Nat) : Str := natDigitsAux (n + 1) n

def zeroPadLeft (k : Nat) (ds : Str) : Str :=
  List.replicate (k - ds.length) '0' ++ ds

/-- The package's `padRight` helper: append the pad until the string is
strictly longer than `length`, then truncate to `length`.  For the one-char
pads the package uses this is the closed form of that loop. -/
def padRight (s : Str) (pad : Char) (length : Nat) : Str :=
  (s ++ List.replicate (length + 1 - s.length) pad).take length

/-- The package's `spaces` helper. -/
def spaces (howMany : Nat) : Str := padRight [] ' ' howMany

/-- Go `fmt` string verb `%W.Ps` with optional `-` (left justify) and `0`
(pad with `'0'`) flags: truncate to the precision, then pad to the width. -/
def formatStr (minus zero : Bool) (width : Nat) (prec : Option Nat) (s : Str) : Str :=
  let t := match prec with
    | some p => s.take p
    | none => s
  if width ≤ t.length then t
  else if minus then t ++ List.replicate (width - t.length) ' '
  else List.replicate (width - t.length) (if zero then '0' else ' ') ++ t

/-- Go `fmt` integer verb `%W.Pd` with optional `-` flag: the precision is a
minimum digit count (zero-filled); the `0` flag is ignored by Go whenever a
precision is present, which is the case at every call site here. -/
def formatInt (minus : Bool) (width : Nat) (prec : Option Nat) (n : Int) : Str :=
  let ds := natDigits n.natAbs
  let ds := match prec with
    | some p => zeroPadLeft p ds
    | none => ds
  let ds := if n < 0 then '-' :: ds else ds
  if width ≤ ds.length then ds
  else if minus then ds ++ List.replicate (width - ds.length) ' '
  else List.replicate (width - ds.length) ' ' ++ ds

/-- Model of `strconv.Atoi` as used by the codecs: parse failures are
discarded by the callers (`r, _ = strconv.Atoi(..)`), yielding `0`.
(Overflow of 64-bit `int` is not modelled.) -/
def goAtoi (s : Str) : Int :=
  let (neg, t) : Bool × Str := match s with
    | '-' :: t => (true, t)
    | '+' :: t => (false, t)
    | t => (false, t)
  if t = [] then 0
  else if allDigits t then (if neg then -(digitsToNat t : Int) else (digitsToNat t : Int))
  else 0

/-- Model of `decimal.NewFromString` as used by the codecs: sign, integer
digits, optional fraction digits; parse failures are discarded by the
callers, yielding `0`.  (Exponent forms are accepted by the library but are
never produced by this file format and are not modelled.) -/
def goDecimalParse (s : Str) : Decimal :=
  let (neg, t) : Bool × Str := match s with
    | '-' :: t => (true, t)
    | '+' :: t => (false, t)
    | t => (false, t)
  let ip := t.takeWhile (· ≠ '.')
  let rest := t.dropWhile (· ≠ '.')
  let fp? : Option Str := match rest with
    | [] => some []
    | _ :: fp => if fp.contains '.' then none else some fp
  match fp? with
  | none => 0
  | some fp =>
    if (ip ++ fp) = [] then 0
    else if allDigits (ip ++ fp) then
      let v : Decimal :=
        ((digitsToNat ip * 10 ^ fp.length + digitsToNat fp : Nat) : Decimal) /
          ((10 ^ fp.length : Nat) : Decimal)
      if neg then -v else v
    else 0

/-- Floor of a rational, written out with `Int.fdiv` so it computes. -/
def ratFloor (q : Rat) : Int := q.num.fdiv (q.den : Int)

/-- Round a decimal value to a whole number of cents, ties to even
(banker's rounding), as `decimal.Decimal.StringFixedBank(2)` does. -/
def roundBankCents (q : Decimal) : Int :=
  let x := q * 100
  let f := ratFloor x
  let r : Rat := x - (f : Rat)
  if r > 1 / 2 then f + 1
  else if r < 1 / 2 then f
  else if f % 2 = 0 then f else f + 1

/-- Model of `decimal.Decimal.StringFixedBank(2)`: exactly two fraction
digits, banker's rounding, `-` sign only for negative values. -/
def stringFixedBank2 (q : Decimal) : Str :=
  let c := roundBankCents q
  let a := c.natAbs
  (if c < 0 then ['-'] else []) ++ natDigits (a / 100) ++ '.' :: zeroPadLeft 2 (natDigits (a % 100))

/-- A `time.Time`, reduced to the `yyyymmdd` date it serializes to (the
package formats and parses dates with the `"20060102"` layout only). -/
structure GoTime where
  ymd : Nat
  deriving DecidableEq, Repr

/-- The Go zero `time.Time` is 0001-01-01. -/
def GoTime.zero : GoTime := ⟨10101⟩

/-- `time.Time.Format("20060102")`: four-digit zero-padded year, two-digit
month and day (years of parsed dates are below 10000). -/
def GoTime.format (t : GoTime) : Str := zeroPadLeft 8 (natDigits t.ymd)

def isLeap (y : Nat) : Bool := (y % 4 = 0 && y % 100 ≠ 0) || y % 400 = 0

def daysInMonth (y m : Nat) : Nat :=
  if m = 2 then (if isLeap y then 29 else 28)
  else if m = 4 || m = 6 || m = 9 || m = 11 then 30
  else 31

/-- Model of `time.Parse("20060102", s)` as used by the codecs: on any parse
failure the callers discard the error (`t, _ = time.Parse(..)`), leaving the
zero time. -/
def goTimeParse (s : Str) : GoTime :=
  if s.length = 8 && allDigits s then
    let n := digitsToNat s
    let m := n / 100 % 100
    let d := n % 100
    if 1 ≤ m && m ≤ 12 && 1 ≤ d && d ≤ daysInMonth (n / 10000) m then ⟨n⟩
    else GoTime.zero
  else GoTime.zero

/-! ## Package constants and error values -/

def Debit : Str := ['D', 'R']
def Credit : Str := ['C', 'R']
def BatchTXN : Str := ['S', 'T']
def BatchPAY : Str := ['S', 'P']

/-- The package's sentinel `error` values; `invalidRecordAt i` is the
`fmt.Errorf("%v (record %d)", ErrInvalidRecord, i)` wrapper produced by
`Writer.Write`. -/
inductive Err where
  | insufficientRecords
  | insufficientBatches
  | invalidRecord
  | invalidRecordAt (i : Nat)
  | badFileHeader
  | badBatchHeader
  | badRecord
  | badBatchTrailer
  | badFileTrailer
  | unexpectedRecordType
  deriving DecidableEq, Repr

/-! ## Record types (txn.go) -/

/-- `FileHeader` — TXN file header. -/
structure FileHeader where
  recordType : Int
  CustomerNumber : Str
  CustomerName : Str
  RemitterName : Str
  FileCreated : GoTime
  ProcessingDate : GoTime
  Description : Str
  deriving DecidableEq, Repr

/-- The Go zero value of `FileHeader`. -/
def FileHeader.zero : FileHeader :=
  ⟨0, [], [], [], GoTime.zero, GoTime.zero, []⟩

/-- `BatchHeader` — TXN batch header, one per batch. -/
structure BatchHeader where
  recordType : Int
  BSBNumber : Str
  AccountNumber : Str
  AccountName : Str
  TransactionDate : GoTime
  Amount : Decimal
  Indicator : Str
  deriving DecidableEq, Repr

def BatchHeader.zero : BatchHeader :=
  ⟨0, [], [], [], GoTime.zero, 0, []⟩

/-- `Record` — one transaction line. -/
structure Record where
  recordType : Int
  BSBNumber : Str
  AccountNumber : Str
  AccountName : Str
  TransactionDate : GoTime
  Amount : Decimal
  Indicator : Str
  TransactionCode : Str
  Description : Str
  ReferenceNumber : Int
  SecondaryReferenceNumber : Str
  ChequeNumber : Str
  deriving DecidableEq, Repr

def Record.zero : Record :=
  ⟨0, [], [], [], GoTime.zero, 0, [], [], [], 0, [], []⟩

/-- `FileTrailer` — file-wide totals. -/
structure FileTrailer where
  recordType : Int
  CustomerNumber : Str
  CustomerName : Str
  TotalDebitTransactions : Int
  TotalCreditTransactions : Int
  TotalDebitAmount : Decimal
  TotalCreditAmount : Decimal
  deriving DecidableEq, Repr

def FileTrailer.zero : FileTrailer :=
  ⟨0, [], [], 0, 0, 0, 0⟩

/-- `BatchTrailer` — per-batch totals. -/
structure BatchTrailer where
  recordType : Int
  BSBNumber : Str
  AccountNumber : Str
  AccountName : Str
  TransactionDate : GoTime
  Amount : Decimal
  Indicator : Str
  BatchType : Str
  ReferenceNumber : Int
  TotalDebitTransactions : Int
  TotalCreditTransactions : Int
  TotalDebitAmount : Decimal
  TotalCreditAmount : Decimal
  deriving DecidableEq, Repr

def BatchTrailer.zero : BatchTrailer :=
  ⟨0, [], [], [], GoTime.zero, 0, [], [], 0, 0, 0, 0, 0⟩

/-- The `^\d{3}-\d{3}$` BSB regular expression of `Record.IsValid`. -/
def bsbMatch (s : Str) : Bool :=
  match s with
  | [a, b, c, dash, d, e, f] =>
    a.isDigit && b.isDigit && c.isDigit && dash = '-' && d.isDigit && e.isDigit && f.isDigit
  | _ => false

/-- `Record.IsValid`: indicator must be `DR` or `CR` and the BSB number must
match `\d{3}-\d{3}`. -/
def Record.IsValid (r : Record) : Bool :=
  if r.Indicator = Credit ∨ r.Indicator = Debit then bsbMatch r.BSBNumber else false

/-! ## Record codecs (txn.go)

Each `Read` mirrors the Go method: it takes the receiver (the Go methods
mutate their receiver) and the input line, and returns the updated receiver
together with the `error` result; on a length failure the receiver is
returned unchanged, exactly as in Go.  Each `Write` returns the fixed-width
line (without its terminator, which `Writer.Write` appends separately). -/

def FileHeader.Read (h : FileHeader) (l : Str) : FileHeader × Option Err :=
  if l.length ≠ 171 ∧ l.length ≠ 172 then (h, some .badFileHeader)
  else
    ({ recordType := goAtoi (trimSpace (slice l 0 1))
       CustomerNumber := trimSpace (slice l 1 10)
       CustomerName := trimSpace (slice l 10 45)
       RemitterName := trimSpace (slice l 45 64)
       FileCreated := goTimeParse (trimSpace (slice l 64 72))
       ProcessingDate := goTimeParse (trimSpace (slice l 72 80))
       Description := trimSpace (slice l 80 100) }, none)

def BatchHeader.Read (h : BatchHeader) (l : Str) : BatchHeader × Option Err :=
  if l.length ≠ 171 ∧ l.length ≠ 172 then (h, some .badBatchHeader)
  else
    ({ h with
       BSBNumber := trimSpace (slice l 1 8)
       AccountNumber := trimSpace (slice l 8 17)
       AccountName := trimSpace (slice l 17 52)
       TransactionDate := goTimeParse (trimSpace (slice l 52 60))
       Amount := goDecimalParse (trimSpace (slice l 60 76))
       Indicator := trimSpace (slice l 76 78) }, none)

def Record.Read (r : Record) (l : Str) : Record × Option Err :=
  if l.length ≠ 169 ∧ l.length ≠ 170 then (r, some .badRecord)
  else
    let r' : Record :=
      { recordType := goAtoi (trimSpace (slice l 0 1))
        BSBNumber := trimSpace (slice l 1 8)
        AccountNumber := trimSpace (slice l 8 17)
        AccountName := trimSpace (slice l 17 52)
        TransactionDate := goTimeParse (trimSpace (slice l 52 60))
        Amount := goDecimalParse (trimSpace (slice l 60 76))
        Indicator := trimSpace (slice l 76 78)
        TransactionCode := trimSpace (slice l 78 80)
        Description := trimSpace (slice l 80 120)
        ReferenceNumber := goAtoi (trimSpace (slice l 120 130))
        SecondaryReferenceNumber := trimSpace (slice l 130 140)
        ChequeNumber := trimSpace (slice l 140 148) }
    if ¬ r'.IsValid then (r', some .invalidRecord) else (r', none)

def FileTrailer.Read (t : FileTrailer) (l : Str) : FileTrailer × Option Err :=
  if l.length ≠ 171 ∧ l.length ≠ 172 then (t, some .badFileTrailer)
  else
    ({ recordType := goAtoi (trimSpace (slice l 0 1))
       CustomerNumber := trimSpace (slice l 1 9)
       CustomerName := trimSpace (slice l 9 44)
       TotalDebitTransactions := goAtoi (trimSpace (slice l 44 50))
       TotalCreditTransactions := goAtoi (trimSpace (slice l 50 56))
       TotalDebitAmount := goDecimalParse (trimSpace (slice l 56 72))
       TotalCreditAmount := goDecimalParse (trimSpace (slice l 72 88)) }, none)

def BatchTrailer.Read (t : BatchTrailer) (l : Str) : BatchTrailer × Option Err :=
  if l.length ≠ 171 ∧ l.length ≠ 172 then (t, some .badBatchTrailer)
  else
    ({ recordType := goAtoi (trimSpace (slice l 0 1))
       BSBNumber := trimSpace (slice l 1 8)
       AccountNumber := trimSpace (slice l 8 17)
       AccountName := trimSpace (slice l 17 52)
       TransactionDate := goTimeParse (trimSpace (slice l 52 60))
       Amount := goDecimalParse (trimSpace (slice l 60 76))
       Indicator := trimSpace (slice l 76 78)
       BatchType := trimSpace (slice l 78 80)
       ReferenceNumber := goAtoi (trimSpace (slice l 80 86))
       TotalDebitTransactions := goAtoi (trimSpace (slice l 86 92))
       TotalCreditTransactions := goAtoi (trimSpace (slice l 92 98))
       TotalDebitAmount := goDecimalParse (trimSpace (slice l 98 114))
       TotalCreditAmount := goDecimalParse (trimSpace (slice l 114 130)) }, none)

/-- `FileHeader.Write`: format string
`"%d%08.8s%-35.35s%-20.20s%8.8s%8.8s%20.20s%s"` followed by `padRight` to
170 characters. -/
def FileHeader.Write (h : FileHeader) : Str :=
  padRight
    (formatInt false 0 none h.recordType ++
     formatStr false true 8 (some 8) h.CustomerNumber ++
     formatStr true false 35 (some 35) h.CustomerName ++
     formatStr true false 20 (some 20) h.RemitterName ++
     formatStr false false 8 (some 8) h.FileCreated.format ++
     formatStr false false 8 (some 8) h.ProcessingDate.format ++
     formatStr false false 20 (some 20) h.Description ++
     spaces 70) ' ' 170

/-- `BatchHeader.Write`: format string
`"1%-7.7s%-9.9s%-35.35s%8.8s%16.16s%2.2s%s"` followed by `padRight` to 170
characters. -/
def BatchHeader.Write (h : BatchHeader) : Str :=
  padRight
    ('1' ::
     formatStr true false 7 (some 7) h.BSBNumber ++
     formatStr true false 9 (some 9) h.AccountNumber ++
     formatStr true false 35 (some 35) h.AccountName ++
     formatStr false false 8 (some 8) h.TransactionDate.format ++
     formatStr false false 16 (some 16) (stringFixedBank2 h.Amount) ++
     formatStr false false 2 (some 2) h.Indicator ++
     spaces 92) ' ' 170

/-- `Record.Write`: format string
`"2%7.7s%9.9s%-35.35s%8.8s%16.16s%2.2s%2.2s%-40.40s%-10.1d%-10.10s%-8.8s%s"`
followed by `padRight` to 168 characters. -/
def Record.Write (r : Record) : Str :=
  padRight
    ('2' ::
     formatStr false false 7 (some 7) r.BSBNumber ++
     formatStr false false 9 (some 9) r.AccountNumber ++
     formatStr true false 35 (some 35) r.AccountName ++
     formatStr false false 8 (some 8) r.TransactionDate.format ++
     formatStr false false 16 (some 16) (stringFixedBank2 r.Amount) ++
     formatStr false false 2 (some 2) r.Indicator ++
     formatStr false false 2 (some 2) r.TransactionCode ++
     formatStr true false 40 (some 40) r.Description ++
     formatInt true 10 (some 1) r.ReferenceNumber ++
     formatStr true false 10 (some 10) r.SecondaryReferenceNumber ++
     formatStr true false 8 (some 8) r.ChequeNumber ++
     spaces 20) ' ' 168

/-- `BatchTrailer.Write`: format string
`"%d%7.7s%9.9s%-35.35s%8.8s%16.16s%2s%2s%06.6d%6.1d%6.1d%16.16s%16.16s%s"`
followed by `padRight` to 170 characters. -/
def BatchTrailer.Write (t : BatchTrailer) : Str :=
  padRight
    (formatInt false 0 none t.recordType ++
     formatStr false false 7 (some 7) t.BSBNumber ++
     formatStr false false 9 (some 9) t.AccountNumber ++
     formatStr true false 35 (some 35) t.AccountName ++
     formatStr false false 8 (some 8) t.TransactionDate.format ++
     formatStr false false 16 (some 16) (stringFixedBank2 t.Amount) ++
     formatStr false false 2 none t.Indicator ++
     formatStr false false 2 none t.BatchType ++
     formatInt false 6 (some 6) t.ReferenceNumber ++
     formatInt false 6 (some 1) t.TotalDebitTransactions ++
     formatInt false 6 (some 1) t.TotalCreditTransactions ++
     formatStr false false 16 (some 16) (stringFixedBank2 t.TotalDebitAmount) ++
     formatStr false false 16 (some 16) (stringFixedBank2 t.TotalCreditAmount) ++
     spaces 40) ' ' 170

/-- `FileTrailer.Write`: format string
`"%d%08.8s%-35.35s%-6.1d%-6.1d%-16.16s%-16.16s%s"` followed by `padRight`
to 170 characters. -/
def FileTrailer.Write (t : FileTrailer) : Str :=
  padRight
    (formatInt false 0 none t.recordType ++
     formatStr false true 8 (some 8) t.CustomerNumber ++
     formatStr true false 35 (some 35) t.CustomerName ++
     formatInt true 6 (some 1) t.TotalDebitTransactions ++
     formatInt true 6 (some 1) t.TotalCreditTransactions ++
     formatStr true false 16 (some 16) (stringFixedBank2 t.TotalDebitAmount) ++
     formatStr true false 16 (some 16) (stringFixedBank2 t.TotalCreditAmount) ++
     spaces 82) ' ' 170

/-! ## Batch, Writer (unnamed writer source file) -/

/-- `Batch` — batch header, records, batch trailer (reader.go). -/
structure Batch where
  BatchHeader : BatchHeader
  Records : List Record
  BatchTrailer : BatchTrailer
  deriving DecidableEq, Repr

/-- The Go zero value of `Batch` (`var batch Batch`). -/
def Batch.zero : Batch := ⟨BatchHeader.zero, [], BatchTrailer.zero⟩

/-- The `Writer`.  The buffered sink is replaced by the list of lines the
call produces; everything else is carried verbatim (`FileHeader` and
`FileTrailer` are pointers in Go, so their mutations are visible to the
caller — modelled by returning the updated writer). -/
structure Writer where
  OmitBatchTotals : Bool
  CRLFLineEndings : Bool
  FileHeader : FileHeader
  FileTrailer : FileTrailer
  Batch : List Batch
  deriving DecidableEq, Repr

/-- Append the line terminator `Writer.Write` emits after every record. -/
def terminate (crlf : Bool) (l : Str) : Str :=
  l ++ (if crlf then ['\r', '\n'] else ['\n'])

/-- The per-record loop body of `Writer.Write`, fused over the record list:
validate, accumulate file/batch totals (unless suppressed; an indicator
outside DR/CR falls to the logging `default` branch and updates nothing),
then emit the record line.  Returns the emitted lines, the file trailer and
the four batch accumulators at loop exit, and the index of the first invalid
record if the loop aborted there. -/
def writeRecords (obt crlf : Bool) :
    List Record → Nat → FileTrailer → Int → Int → Decimal → Decimal →
    List Str × FileTrailer × Int × Int × Decimal × Decimal × Option Nat
  | [], _, ft, bdc, bcc, bdt, bct => ([], ft, bdc, bcc, bdt, bct, none)
  | r :: rest, i, ft, bdc, bcc, bdt, bct =>
    if ¬ r.IsValid then ([], ft, bdc, bcc, bdt, bct, some i)
    else
      let (ft, bdc, bcc, bdt, bct) :=
        if obt then (ft, bdc, bcc, bdt, bct)
        else if r.Indicator = Debit then
          ({ ft with
             TotalDebitAmount := ft.TotalDebitAmount + r.Amount
             TotalDebitTransactions := ft.TotalDebitTransactions + 1 },
           bdc + 1, bcc, bdt + r.Amount, bct)
        else if r.Indicator = Credit then
          ({ ft with
             TotalCreditAmount := ft.TotalCreditAmount + r.Amount
             TotalCreditTransactions := ft.TotalCreditTransactions + 1 },
           bdc, bcc + 1, bdt, bct + r.Amount)
        else (ft, bdc, bcc, bdt, bct)
      let (ls, ft', bdc', bcc', bdt', bct', e) :=
        writeRecords obt crlf rest (i + 1) ft bdc bcc bdt bct
      (terminate crlf r.Write :: ls, ft', bdc', bcc', bdt', bct', e)

/-- The batch-trailer fields `Writer.Write` fills in on its per-iteration
copy of the batch just before serializing it. -/
def mkBatchTrailer (b : Batch) (now : GoTime) (k : Nat)
    (bdc bcc : Int) (bdt bct : Decimal) : BatchTrailer :=
  let batchAmount := bct - bdt
  let indicator := if batchAmount < 0 then Debit else Credit
  { b.BatchTrailer with
    BSBNumber := b.BatchHeader.BSBNumber
    AccountNumber := b.BatchHeader.AccountNumber
    AccountName := b.BatchHeader.AccountName
    TransactionDate := now
    Amount := |batchAmount|
    Indicator := indicator
    BatchType := BatchTXN
    ReferenceNumber := (k : Int)
    TotalDebitTransactions := bdc
    TotalCreditTransactions := bcc
    TotalDebitAmount := bdt
    TotalCreditAmount := bct }

/-- The per-batch loop of `Writer.Write`, starting at batch index `k`.
Besides the emitted lines and the threaded file trailer it returns, as a
ghost observation, the list of batch trailers it serialized. -/
def writeBatches (obt crlf : Bool) (now : GoTime) :
    List Batch → Nat → FileTrailer →
    List Str × List BatchTrailer × FileTrailer × Option Err
  | [], _, ft => ([], [], ft, none)
  | b :: rest, k, ft =>
    let bhLine := terminate crlf b.BatchHeader.Write
    let (rls, ft', bdc, bcc, bdt, bct, e) := writeRecords obt crlf b.Records 0 ft 0 0 0 0
    match e with
    | some i => (bhLine :: rls, [], ft', some (.invalidRecordAt i))
    | none =>
      let bt := mkBatchTrailer b now k bdc bcc bdt bct
      let btLine := terminate crlf bt.Write
      let (ls, bts, ft'', e') := writeBatches obt crlf now rest (k + 1) ft'
      (bhLine :: (rls ++ btLine :: ls), bt :: bts, ft'', e')

/-- `Writer.Write`: write the whole file.  `now` stands for the `time.Now()`
calls.  Returns the emitted lines, the serialized batch trailers (ghost),
the writer after the call (its file trailer holds the accumulated totals),
and the returned `error`. -/
def Writer.Write (w : Writer) (now : GoTime) :
    List Str × List BatchTrailer × Writer × Option Err :=
  if w.Batch.length < 1 then ([], [], w, some .insufficientBatches)
  else
    let fhLine := terminate w.CRLFLineEndings w.FileHeader.Write
    let (ls, bts, ft', e) :=
      writeBatches w.OmitBatchTotals w.CRLFLineEndings now w.Batch 0 w.FileTrailer
    match e with
    | some err => (fhLine :: ls, bts, { w with FileTrailer := ft' }, some err)
    | none =>
      let ftLine := terminate w.CRLFLineEndings ft'.Write
      (fhLine :: (ls ++ [ftLine]), bts, { w with FileTrailer := ft' }, none)

/-- `NewBatch` (`now` stands for the `time.Now()` calls). -/
def NewBatch (now : GoTime) : Batch :=
  { BatchHeader := { BatchHeader.zero with recordType := 1, TransactionDate := now }
    Records := []
    BatchTrailer :=
      { BatchTrailer.zero with recordType := 7, TransactionDate := now, BatchType := BatchPAY } }

/-- `NewWriter` (`now` stands for the `time.Now()` calls). -/
def NewWriter (now : GoTime) : Writer :=
  { OmitBatchTotals := false
    CRLFLineEndings := false
    FileHeader :=
      { FileHeader.zero with
        recordType := 0
        FileCreated := now
        ProcessingDate := now
        Description := ['A', 'C', 'C', 'O', 'U', 'N', 'T', ' ',
                        'T', 'R', 'A', 'N', 'S', 'A', 'C', 'T', 'I', 'O', 'N', 'S'] }
    FileTrailer := { FileTrailer.zero with recordType := 9 }
    Batch := [NewBatch now] }

/-! ## Reader (reader.go)

The buffered byte source is modelled as the list of lines `ReadString('\n')`
would deliver: every element ends in `'\n'` except possibly the last (a file
that ends without a terminator).  `readRecordOrHeaderOrTrailer` peeks one
byte to classify the line, then consumes the whole line. -/

/-- The `Reader`'s caller-visible state. -/
structure Reader where
  FileHeader : FileHeader
  Batch : List Batch
  FileTrailer : FileTrailer
  deriving DecidableEq, Repr

/-- `NewReader`: all fields at their Go zero values. -/
def Reader.zero : Reader := ⟨FileHeader.zero, [], FileTrailer.zero⟩

/-- Which out-of-bounds slice index a run of the reader hit:
`r.Batch[len(r.Batch)-1]` on the `'2'` branch or on the `'7'` branch. -/
inductive PanicTag where
  | recordBranch
  | trailerBranch
  deriving DecidableEq, Repr

/-- Result of `ReadAll`: either the Go return value `(r.Batch, err)` together
with the final reader state, or a runtime panic from an out-of-bounds index
into the empty batch list. -/
inductive ReadOutcome where
  | done (batches : List Batch) (e : Option Err) (r : Reader)
  | panic (t : PanicTag)
  deriving DecidableEq, Repr

/-- Mutate the last element of a list (`l[len(l)-1] = ..` on a nonempty Go
slice). -/
def modifyLast (f : α → α) : List α → List α
  | [] => []
  | [a] => [f a]
  | a :: rest => a :: modifyLast f rest

/-- The byte `ReadByte` peeks at, i.e. the first character of the line.
(`ReadString` never returns an empty line after a successful peek, so the
default is unreachable on realizable inputs.) -/
def firstByte (l : Str) : Char := l.headD 'A'

/-- One `readRecordOrHeaderOrTrailer` call on a line: either the updated
reader state plus the returned `error`, or a panic tag. -/
def readStep (r : Reader) (line : Str) : Reader × Option Err ⊕ PanicTag :=
  let b := firstByte line
  if b = '0' then
    let (fh, e) := r.FileHeader.Read line
    .inl ({ r with FileHeader := fh }, e)
  else if b = '1' then
    let (bh, e) := Batch.zero.BatchHeader.Read line
    match e with
    | none => .inl ({ r with Batch := r.Batch ++ [{ Batch.zero with BatchHeader := bh }] }, none)
    | some err => .inl (r, some err)
  else if b = '2' then
    let (rec, e) := Record.zero.Read line
    match e with
    | none =>
      if rec.IsValid then
        if r.Batch = [] then .inr .recordBranch
        else .inl ({ r with Batch := modifyLast (fun bb => { bb with Records := bb.Records ++ [rec] }) r.Batch }, none)
      else .inl (r, some .invalidRecord)
    | some err => .inl (r, some err)
  else if b = '7' then
    let (bt, e) := Batch.zero.BatchTrailer.Read line
    match e with
    | none =>
      if r.Batch = [] then .inr .trailerBranch
      else .inl ({ r with Batch := modifyLast (fun bb => { bb with BatchTrailer := bt }) r.Batch }, none)
    | some err => .inl (r, some err)
  else if b = '9' then
    let (ft, e) := r.FileTrailer.Read line
    .inl ({ r with FileTrailer := ft }, e)
  else .inl (r, some .unexpectedRecordType)

/-- `Reader.ReadAll`: loop `readRecordOrHeaderOrTrailer` until end of input
(which is reported as success) or the first error (which stops the loop and
is returned along with the batches read so far). -/
def Reader.ReadAll (r : Reader) : List Str → ReadOutcome
  | [] => .done r.Batch none r
  | line :: rest =>
    match readStep r line with
    | .inr t => .panic t
    | .inl (r', none) => Reader.ReadAll r' rest
    | .inl (r', some e) => .done r'.Batch (some e) r'

/-! ## Specification-side aggregates

Sums and counts written independently of the writer loop, used to state the
totals claims. -/

/-- Sum of the amounts of the records with indicator `DR`. -/
def drSum (rs : List Record) : Decimal :=
  ((rs.filter fun r => r.Indicator = Debit).map Record.Amount).sum

/-- Sum of the amounts of the records with indicator `CR`. -/
def crSum (rs : List Record) : Decimal :=
  ((rs.filter fun r => r.Indicator = Credit).map Record.Amount).sum

/-- Number of records with indicator `DR`. -/
def drCount (rs : List Record) : Int :=
  ((rs.filter fun r => r.Indicator = Debit).length : Int)

/-- Number of records with indicator `CR`. -/
def crCount (rs : List Record) : Int :=
  ((rs.filter fun r => r.Indicator = Credit).length : Int)

/-- Per-batch debit/credit totals actually accumulated by one pass of the
record loop: zero when batch totals are suppressed. -/
def passDrSum (obt : Bool) (rs : List Record) : Decimal := if obt then 0 else drSum rs
def passCrSum (obt : Bool) (rs : List Record) : Decimal := if obt then 0 else crSum rs
def passDrCount (obt : Bool) (rs : List Record) : Int := if obt then 0 else drCount rs
def passCrCount (obt : Bool) (rs : List Record) : Int := if obt then 0 else crCount rs

/-- File trailer after folding one batch's records into it. -/
def addToFT (obt : Bool) (ft : FileTrailer) (rs : List Record) : FileTrailer :=
  if obt then ft
  else
    { ft with
      TotalDebitAmount := ft.TotalDebitAmount + drSum rs
      TotalCreditAmount := ft.TotalCreditAmount + crSum rs
      TotalDebitTransactions := ft.TotalDebitTransactions + drCount rs
      TotalCreditTransactions := ft.TotalCreditTransactions + crCount rs }

/-- File trailer after folding every batch of the list into it. -/
def addAllFT (obt : Bool) (ft : FileTrailer) : List Batch → FileTrailer
  | [] => ft
  | b :: rest => addAllFT obt (addToFT obt ft b.Records) rest

/-- The batch trailer the writer serializes for the batch at index `k`. -/
def mkTrailerFor (obt : Bool) (now : GoTime) (k : Nat) (b : Batch) : BatchTrailer :=
  mkBatchTrailer b now k (passDrCount obt b.Records) (passCrCount obt b.Records)
    (passDrSum obt b.Records) (passCrSum obt b.Records)

/-- The batch trailers serialized for a list of batches starting at index
`k`. -/
def trailersFrom (obt : Bool) (now : GoTime) (k : Nat) : List Batch → List BatchTrailer
  | [] => []
  | b :: rest => mkTrailerFor obt now k b :: trailersFrom obt now (k + 1) rest

/-- The record line (with terminator) emitted for one record. -/
def recLine (crlf : Bool) (r : Record) : Str := terminate crlf r.Write

/-- All lines emitted for one all-valid batch at index `k`. -/
def batchAllLines (obt crlf : Bool) (now : GoTime) (k : Nat) (b : Batch) : List Str :=
  terminate crlf b.BatchHeader.Write ::
    (b.Records.map (recLine crlf) ++ [terminate crlf (mkTrailerFor obt now k b).Write])

/-- All lines emitted for a list of all-valid batches starting at index
`k`. -/
def batchesLines (obt crlf : Bool) (now : GoTime) (k : Nat) : List Batch → List Str
  | [] => []
  | b :: rest => batchAllLines obt crlf now k b ++ batchesLines obt crlf now (k + 1) rest

/-- The input-ordering precondition of the reader: every `'2'` line is
preceded by some `'1'` line. -/
def OrderedInput (lines : List Str) : Prop :=
  ∀ pre l2 post, lines = pre ++ l2 :: post → firstByte l2 = '2' →
    ∃ l1 ∈ pre, firstByte l1 = '1'

/-- File-wide debit amount accumulated by one `Writer.Write` pass. -/
def totalDrSum (obt : Bool) (bs : List Batch) : Decimal :=
  (bs.map fun b => passDrSum obt b.Records).sum

/-- File-wide credit amount accumulated by one `Writer.Write` pass. -/
def totalCrSum (obt : Bool) (bs : List Batch) : Decimal :=
  (bs.map fun b => passCrSum obt b.Records).sum

/-- File-wide debit count accumulated by one `Writer.Write` pass. -/
def totalDrCount (obt : Bool) (bs : List Batch) : Int :=
  (bs.map fun b => passDrCount obt b.Records).sum

/-- File-wide credit count accumulated by one `Writer.Write` pass. -/
def totalCrCount (obt : Bool) (bs : List Batch) : Int :=
  (bs.map fun b => passCrCount obt b.Records).sum

/-! ## Concrete fixtures

Small concrete values used by the counterexamples and witnesses below. -/

/-- A valid debit record (BSB in `NNN-NNN` form, indicator `DR`). -/
def recDR : Record :=
  { Record.zero with BSBNumber := "182-222".toList, Indicator := Debit, Amount := 5 }

/-- A valid credit record. -/
def recCR : Record :=
  { Record.zero with BSBNumber := "182-222".toList, Indicator := Credit, Amount := 3 }

/-- A record with an indicator outside `{DR, CR}` (and a well-formed BSB). -/
def recXX : Record :=
  { Record.zero with BSBNumber := "182-222".toList, Indicator := "XX".toList, Amount := 5 }

/-- A writer over one batch of two valid records. -/
def wDemo : Writer :=
  { NewWriter ⟨20170123⟩ with Batch := [{ NewBatch ⟨20170123⟩ with Records := [recDR, recCR] }] }

/-- `wDemo` with batch totals suppressed. -/
def wOmit : Writer := { wDemo with OmitBatchTotals := true }

/-- A writer whose single batch holds one record with indicator `XX`. -/
def wXX : Writer :=
  { NewWriter ⟨20170123⟩ with Batch := [{ NewBatch ⟨20170123⟩ with Records := [recXX] }] }

/-- A writer with an empty batch list. -/
def wEmpty : Writer := { NewWriter ⟨20170123⟩ with Batch := [] }

/-- A writer whose batch holds a valid record, then an invalid one, then
another valid one. -/
def wMixed : Writer :=
  { NewWriter ⟨20170123⟩ with
    Batch := [{ NewBatch ⟨20170123⟩ with Records := [recDR, recXX, recCR] }] }

/-- A file header whose string fields fit their column widths. -/
def fhC1 : FileHeader :=
  { recordType := 0
    CustomerNumber := "12345678".toList
    CustomerName := "ABC".toList
    RemitterName := "XY".toList
    FileCreated := ⟨20170123⟩
    ProcessingDate := ⟨20170123⟩
    Description := "D".toList }

/-- A well-formed batch-header line: `'1'` followed by blanks (171 bytes
with its terminator). -/
def lineBH : Str := '1' :: (List.replicate 169 ' ' ++ ['\n'])

/-- A well-formed, valid transaction-record line (169 bytes with its
terminator): BSB `182-222`, indicator `DR`, code `13`. -/
def lineRecValid : Str :=
  '2' :: ("182-222".toList ++ List.replicate 68 ' ' ++ "DR".toList ++ "13".toList ++
    List.replicate 88 ' ' ++ ['\n'])

/-- A well-sized transaction-record line that fails the validity check
(blank BSB and indicator). -/
def lineRecInvalid : Str := '2' :: (List.replicate 167 ' ' ++ ['\n'])

/-! ## Lemmas about the writer loops -/

theorem isValid_indicator {r : Record} (h : r.IsValid) :
    r.Indicator = Credit ∨ r.Indicator = Debit := by
  by_contra hc
  push_neg at hc
  unfold Record.IsValid at h
  rw [if_neg] at h
  · exact Bool.false_ne_true h
  · push_neg
    exact hc

theorem credit_ne_debit : Credit ≠ Debit := by decide

theorem debit_ne_credit : Debit ≠ Credit := by decide

@[simp] theorem drSum_nil : drSum [] = 0 := rfl
@[simp] theorem crSum_nil : crSum [] = 0 := rfl
@[simp] theorem drCount_nil : drCount [] = 0 := rfl
@[simp] theorem crCount_nil : crCount [] = 0 := rfl

theorem drSum_cons (r : Record) (rs : List Record) :
    drSum (r :: rs) = (if r.Indicator = Debit then r.Amount else 0) + drSum rs := by
  by_cases h : r.Indicator = Debit <;> simp [drSum, List.filter_cons, h]

theorem crSum_cons (r : Record) (rs : List Record) :
    crSum (r :: rs) = (if r.Indicator = Credit then r.Amount else 0) + crSum rs := by
  by_cases h : r.Indicator = Credit <;> simp [crSum, List.filter_cons, h]

theorem drCount_cons (r : Record) (rs : List Record) :
    drCount (r :: rs) = (if r.Indicator = Debit then 1 else 0) + drCount rs := by
  by_cases h : r.Indicator = Debit
  · simp [drCount, List.filter_cons, h]
    omega
  · simp [drCount, List.filter_cons, h]

theorem crCount_cons (r : Record) (rs : List Record) :
    crCount (r :: rs) = (if r.Indicator = Credit then 1 else 0) + crCount rs := by
  by_cases h : r.Indicator = Credit
  · simp [crCount, List.filter_cons, h]
    omega
  · simp [crCount, List.filter_cons, h]

@[simp] theorem addToFT_nil (obt : Bool) (ft : FileTrailer) : addToFT obt ft [] = ft := by
  cases ft
  cases obt <;> simp [addToFT]

/-- One valid record folded into `addToFT`. -/
theorem addToFT_cons (obt : Bool) (ft : FileTrailer) (r : Record) (rs : List Record) :
    addToFT obt ft (r :: rs) =
      addToFT obt
        (if obt then ft
         else if r.Indicator = Debit then
          { ft with
            TotalDebitAmount := ft.TotalDebitAmount + r.Amount
            TotalDebitTransactions := ft.TotalDebitTransactions + 1 }
         else if r.Indicator = Credit then
          { ft with
            TotalCreditAmount := ft.TotalCreditAmount + r.Amount
            TotalCreditTransactions := ft.TotalCreditTransactions + 1 }
         else ft) rs := by
  cases obt
  · by_cases hd : r.Indicator = Debit
    · cases ft
      simp [addToFT, hd, drSum_cons, crSum_cons, drCount_cons, crCount_cons,
        credit_ne_debit, debit_ne_credit]
      and_intros <;> ring
    · by_cases hcred : r.Indicator = Credit
      · cases ft
        simp [addToFT, hd, hcred, drSum_cons, crSum_cons, drCount_cons, crCount_cons,
          credit_ne_debit, debit_ne_credit]
        and_intros <;> ring
      · cases ft
        simp [addToFT, hd, hcred, drSum_cons, crSum_cons, drCount_cons, crCount_cons]
  · simp [addToFT]

/-- The record loop on an all-valid record list: every line is emitted, the
file trailer and the four batch accumulators receive exactly the loop's
debit/credit sums, and no error index is produced. -/
theorem writeRecords_valid (obt crlf : Bool) (recs : List Record)
    (hv : ∀ r ∈ recs, r.IsValid) (i : Nat) (ft : FileTrailer)
    (bdc bcc : Int) (bdt bct : Decimal) :
    writeRecords obt crlf recs i ft bdc bcc bdt bct =
      (recs.map (recLine crlf), addToFT obt ft recs,
       bdc + passDrCount obt recs, bcc + passCrCount obt recs,
       bdt + passDrSum obt recs, bct + passCrSum obt recs, none) := by
  induction recs generalizing i ft bdc bcc bdt bct with
  | nil =>
    simp [writeRecords, passDrCount, passCrCount, passDrSum, passCrSum]
  | cons r rest ih =>
    have hr : r.IsValid := hv r (by simp)
    have hrest : ∀ x ∈ rest, x.IsValid := fun x hx => hv x (by simp [hx])
    rw [addToFT_cons]
    cases obt with
    | false =>
      rcases isValid_indicator hr with hInd | hInd
      · simp only [writeRecords, hr, not_true_eq_false, if_false, Bool.false_eq_true,
          ite_false, hInd, credit_ne_debit, ite_true, if_neg credit_ne_debit, if_pos rfl,
          ih hrest]
        simp [passDrCount, passCrCount, passDrSum, passCrSum, recLine,
          drSum_cons, crSum_cons, drCount_cons, crCount_cons, hInd, credit_ne_debit,
          debit_ne_credit]
        and_intros <;> ring
      · simp only [writeRecords, hr, not_true_eq_false, if_false, Bool.false_eq_true,
          ite_false, hInd, if_pos rfl, ih hrest]
        simp [passDrCount, passCrCount, passDrSum, passCrSum, recLine,
          drSum_cons, crSum_cons, drCount_cons, crCount_cons, hInd, credit_ne_debit,
          debit_ne_credit]
        and_intros <;> ring
    | true =>
      simp only [writeRecords, hr, not_true_eq_false, if_false, Bool.false_eq_true,
        ite_true, if_pos rfl, ih hrest]
      simp [passDrCount, passCrCount, passDrSum, passCrSum, recLine]

/-- The batch loop on all-valid batches: every batch is fully emitted with
its trailer, the file trailer accumulates every batch's sums, and no error
is returned. -/
theorem writeBatches_valid (obt crlf : Bool) (now : GoTime) (bs : List Batch)
    (hv : ∀ b ∈ bs, ∀ r ∈ b.Records, r.IsValid) (k : Nat) (ft : FileTrailer) :
    writeBatches obt crlf now bs k ft =
      (batchesLines obt crlf now k bs, trailersFrom obt now k bs, addAllFT obt ft bs, none) := by
  induction bs generalizing k ft with
  | nil => simp [writeBatches, batchesLines, trailersFrom, addAllFT]
  | cons b rest ih =>
    have hb : ∀ r ∈ b.Records, r.IsValid := hv b (by simp)
    have hrest : ∀ x ∈ rest, ∀ r ∈ x.Records, r.IsValid := fun x hx => hv x (by simp [hx])
    simp only [writeBatches, writeRecords_valid obt crlf b.Records hb 0 ft 0 0 0 0,
      zero_add, ih hrest, addAllFT]
    simp [batchesLines, batchAllLines, trailersFrom, mkTrailerFor]

/-- The batch loop on an all-valid list of batches followed by anything:
the all-valid part is emitted in full and the loop carries on behind it. -/
theorem writeBatches_append_valid (obt crlf : Bool) (now : GoTime) (bs rest : List Batch)
    (hv : ∀ b ∈ bs, ∀ r ∈ b.Records, r.IsValid) (k : Nat) (ft : FileTrailer) :
    writeBatches obt crlf now (bs ++ rest) k ft =
      ((batchesLines obt crlf now k bs ++
          (writeBatches obt crlf now rest (k + bs.length) (addAllFT obt ft bs)).1,
        trailersFrom obt now k bs ++
          (writeBatches obt crlf now rest (k + bs.length) (addAllFT obt ft bs)).2.1,
        (writeBatches obt crlf now rest (k + bs.length) (addAllFT obt ft bs)).2.2)) := by
  induction bs generalizing k ft with
  | nil => simp [batchesLines, trailersFrom, addAllFT]
  | cons b bs' ih =>
    have hb : ∀ r ∈ b.Records, r.IsValid := hv b (by simp)
    have hbs' : ∀ x ∈ bs', ∀ r ∈ x.Records, r.IsValid := fun x hx => hv x (by simp [hx])
    have hk : k + 1 + bs'.length = k + (bs'.length + 1) := by omega
    simp only [List.cons_append, writeBatches,
      writeRecords_valid obt crlf b.Records hb 0 ft 0 0 0 0, zero_add, ih hbs']
    simp [addAllFT, batchesLines, trailersFrom, mkTrailerFor, List.length_cons,
      batchAllLines, hk, ih hbs']

/-- The record loop on a list whose first invalid record sits at position
`pre.length`: the valid records before it are emitted and accumulated, then
the loop aborts with that index. -/
theorem writeRecords_firstInvalid (obt crlf : Bool) (pre : List Record)
    (bad : Record) (post : List Record)
    (hv : ∀ r ∈ pre, r.IsValid) (hbad : ¬ bad.IsValid) (i : Nat) (ft : FileTrailer)
    (bdc bcc : Int) (bdt bct : Decimal) :
    writeRecords obt crlf (pre ++ bad :: post) i ft bdc bcc bdt bct =
      (pre.map (recLine crlf), addToFT obt ft pre,
       bdc + passDrCount obt pre, bcc + passCrCount obt pre,
       bdt + passDrSum obt pre, bct + passCrSum obt pre, some (i + pre.length)) := by
  induction pre generalizing i ft bdc bcc bdt bct with
  | nil =>
    simp only [List.nil_append, writeRecords, hbad, not_false_eq_true, if_pos trivial,
      ite_true]
    simp [passDrCount, passCrCount, passDrSum, passCrSum]
  | cons r rest ih =>
    have hr : r.IsValid := hv r (by simp)
    have hrest : ∀ x ∈ rest, x.IsValid := fun x hx => hv x (by simp [hx])
    rw [addToFT_cons]
    cases obt with
    | false =>
      rcases isValid_indicator hr with hInd | hInd
      · simp only [List.cons_append, writeRecords, hr, not_true_eq_false, if_false,
          Bool.false_eq_true, ite_false, hInd, if_neg credit_ne_debit, if_pos rfl, ih hrest]
        simp [passDrCount, passCrCount, passDrSum, passCrSum, recLine,
          drSum_cons, crSum_cons, drCount_cons, crCount_cons, hInd, credit_ne_debit,
          debit_ne_credit, ih hrest]
        and_intros <;> ring
      · simp only [List.cons_append, writeRecords, hr, not_true_eq_false, if_false,
          Bool.false_eq_true, ite_false, hInd, if_pos rfl, ih hrest]
        simp [passDrCount, passCrCount, passDrSum, passCrSum, recLine,
          drSum_cons, crSum_cons, drCount_cons, crCount_cons, hInd, credit_ne_debit,
          debit_ne_credit, ih hrest]
        and_intros <;> ring
    | true =>
      simp only [List.cons_append, writeRecords, hr, not_true_eq_false, if_false,
        Bool.false_eq_true, ite_true, if_pos rfl, ih hrest]
      simp [passDrCount, passCrCount, passDrSum, passCrSum, recLine, ih hrest]
      omega

@[simp] theorem passDrSum_false (rs : List Record) : passDrSum false rs = drSum rs := rfl
@[simp] theorem passCrSum_false (rs : List Record) : passCrSum false rs = crSum rs := rfl
@[simp] theorem passDrCount_false (rs : List Record) : passDrCount false rs = drCount rs := rfl
@[simp] theorem passCrCount_false (rs : List Record) : passCrCount false rs = crCount rs := rfl
@[simp] theorem passDrSum_true (rs : List Record) : passDrSum true rs = 0 := rfl
@[simp] theorem passCrSum_true (rs : List Record) : passCrSum true rs = 0 := rfl
@[simp] theorem passDrCount_true (rs : List Record) : passDrCount true rs = 0 := rfl
@[simp] theorem passCrCount_true (rs : List Record) : passCrCount true rs = 0 := rfl

/-- Closed form of `addAllFT`: only the four totals change, each by the
pass's total sum. -/
theorem addAllFT_eq (obt : Bool) (bs : List Batch) (ft : FileTrailer) :
    addAllFT obt ft bs =
      { ft with
        TotalDebitAmount := ft.TotalDebitAmount + totalDrSum obt bs
        TotalCreditAmount := ft.TotalCreditAmount + totalCrSum obt bs
        TotalDebitTransactions := ft.TotalDebitTransactions + totalDrCount obt bs
        TotalCreditTransactions := ft.TotalCreditTransactions + totalCrCount obt bs } := by
  induction bs generalizing ft with
  | nil =>
    cases ft
    simp [addAllFT, totalDrSum, totalCrSum, totalDrCount, totalCrCount]
  | cons b rest ih =>
    cases ft
    rw [addAllFT, ih]
    cases obt with
    | false =>
      simp [addToFT, totalDrSum, totalCrSum, totalDrCount, totalCrCount,
        passDrSum, passCrSum, passDrCount, passCrCount]
      and_intros <;> ring
    | true =>
      simp [addToFT, totalDrSum, totalCrSum, totalDrCount, totalCrCount,
        passDrSum, passCrSum, passDrCount, passCrCount]

@[simp] theorem mkTrailerFor_TotalDebitAmount (obt : Bool) (now : GoTime) (k : Nat) (b : Batch) :
    (mkTrailerFor obt now k b).TotalDebitAmount = passDrSum obt b.Records := rfl

@[simp] theorem mkTrailerFor_TotalCreditAmount (obt : Bool) (now : GoTime) (k : Nat) (b : Batch) :
    (mkTrailerFor obt now k b).TotalCreditAmount = passCrSum obt b.Records := rfl

@[simp] theorem mkTrailerFor_TotalDebitTransactions (obt : Bool) (now : GoTime) (k : Nat) (b : Batch) :
    (mkTrailerFor obt now k b).TotalDebitTransactions = passDrCount obt b.Records := rfl

@[simp] theorem mkTrailerFor_TotalCreditTransactions (obt : Bool) (now : GoTime) (k : Nat) (b : Batch) :
    (mkTrailerFor obt now k b).TotalCreditTransactions = passCrCount obt b.Records := rfl

@[simp] theorem mkTrailerFor_ReferenceNumber (obt : Bool) (now : GoTime) (k : Nat) (b : Batch) :
    (mkTrailerFor obt now k b).ReferenceNumber = (k : Int) := rfl

@[simp] theorem mkTrailerFor_Amount (obt : Bool) (now : GoTime) (k : Nat) (b : Batch) :
    (mkTrailerFor obt now k b).Amount = |passCrSum obt b.Records - passDrSum obt b.Records| := rfl

theorem mkTrailerFor_Indicator (obt : Bool) (now : GoTime) (k : Nat) (b : Batch) :
    (mkTrailerFor obt now k b).Indicator =
      if passCrSum obt b.Records - passDrSum obt b.Records < 0 then Debit else Credit := rfl

/-- Indexing the serialized trailers list. -/
theorem trailersFrom_getElem? (obt : Bool) (now : GoTime) (bs : List Batch) :
    ∀ k j, (trailersFrom obt now k bs)[j]? =
      (bs[j]?).map fun b => mkTrailerFor obt now (k + j) b := by
  induction bs with
  | nil => intro k j; simp [trailersFrom]
  | cons b rest ih =>
    intro k j
    cases j with
    | zero => simp [trailersFrom]
    | succ j' =>
      simp only [trailersFrom, List.getElem?_cons_succ, ih (k + 1) j']
      have : k + 1 + j' = k + (j' + 1) := by omega
      rw [this]

theorem trailersFrom_map_TotalDebitAmount (obt : Bool) (now : GoTime) (bs : List Batch) :
    ∀ k, (trailersFrom obt now k bs).map BatchTrailer.TotalDebitAmount =
      bs.map fun b => passDrSum obt b.Records := by
  induction bs with
  | nil => intro k; simp [trailersFrom]
  | cons b rest ih => intro k; simp [trailersFrom, ih (k + 1)]

theorem trailersFrom_map_TotalCreditAmount (obt : Bool) (now : GoTime) (bs : List Batch) :
    ∀ k, (trailersFrom obt now k bs).map BatchTrailer.TotalCreditAmount =
      bs.map fun b => passCrSum obt b.Records := by
  induction bs with
  | nil => intro k; simp [trailersFrom]
  | cons b rest ih => intro k; simp [trailersFrom, ih (k + 1)]

theorem trailersFrom_map_TotalDebitTransactions (obt : Bool) (now : GoTime) (bs : List Batch) :
    ∀ k, (trailersFrom obt now k bs).map BatchTrailer.TotalDebitTransactions =
      bs.map fun b => passDrCount obt b.Records := by
  induction bs with
  | nil => intro k; simp [trailersFrom]
  | cons b rest ih => intro k; simp [trailersFrom, ih (k + 1)]

theorem trailersFrom_map_TotalCreditTransactions (obt : Bool) (now : GoTime) (bs : List Batch) :
    ∀ k, (trailersFrom obt now k bs).map BatchTrailer.TotalCreditTransactions =
      bs.map fun b => passCrCount obt b.Records := by
  induction bs with
  | nil => intro k; simp [trailersFrom]
  | cons b rest ih => intro k; simp [trailersFrom, ih (k + 1)]

/-- `Writer.Write` on a writer whose batches all hold valid records: every
line is emitted, every batch trailer is serialized, the file trailer
accumulates all sums, and no error is returned. -/
theorem write_valid (w : Writer) (now : GoTime)
    (hv : ∀ b ∈ w.Batch, ∀ r ∈ b.Records, r.IsValid) (hne : w.Batch ≠ []) :
    w.Write now =
      (terminate w.CRLFLineEndings w.FileHeader.Write ::
         (batchesLines w.OmitBatchTotals w.CRLFLineEndings now 0 w.Batch ++
          [terminate w.CRLFLineEndings
            (addAllFT w.OmitBatchTotals w.FileTrailer w.Batch).Write]),
       trailersFrom w.OmitBatchTotals now 0 w.Batch,
       { w with FileTrailer := addAllFT w.OmitBatchTotals w.FileTrailer w.Batch },
       none) := by
  have hlen : ¬ w.Batch.length < 1 := by
    cases hb : w.Batch with
    | nil => exact absurd hb hne
    | cons x xs => simp [hb]
  rw [Writer.Write, if_neg hlen,
    writeBatches_valid w.OmitBatchTotals w.CRLFLineEndings now w.Batch hv 0 w.FileTrailer]

/-! ## Lemmas about the reader -/

@[simp] theorem modifyLast_eq_nil_iff (f : α → α) (l : List α) :
    modifyLast f l = [] ↔ l = [] := by
  induction l with
  | nil => simp [modifyLast]
  | cons a rest ih => cases rest <;> simp [modifyLast]

/-- On a reader whose batch list is nonempty, one step never panics and
keeps the batch list nonempty. -/
theorem readStep_batch_nonempty {r : Reader} (hb : r.Batch ≠ []) (line : Str) :
    ∃ r' e, readStep r line = .inl (r', e) ∧ r'.Batch ≠ [] := by
  by_cases h0 : firstByte line = '0'
  · rcases hread : r.FileHeader.Read line with ⟨fh, e⟩
    exact ⟨{ r with FileHeader := fh }, e, by simp [readStep, h0, hread], hb⟩
  · by_cases h1 : firstByte line = '1'
    · rcases hread : Batch.zero.BatchHeader.Read line with ⟨bh, e⟩
      cases e with
      | none =>
        exact ⟨{ r with Batch := r.Batch ++ [{ Batch.zero with BatchHeader := bh }] }, none,
          by simp [readStep, h0, h1, hread], by simp⟩
      | some err => exact ⟨r, some err, by simp [readStep, h0, h1, hread], hb⟩
    · by_cases h2 : firstByte line = '2'
      · rcases hread : Record.zero.Read line with ⟨rec, e⟩
        cases e with
        | none =>
          by_cases hvalid : rec.IsValid
          · refine ⟨{ r with Batch := modifyLast (fun bb => { bb with Records := bb.Records ++ [rec] }) r.Batch }, none, ?_, by simp [hb]⟩
            simp [readStep, h0, h1, h2, hread, hvalid, hb]
          · exact ⟨r, some .invalidRecord,
              by simp [readStep, h0, h1, h2, hread, hvalid], hb⟩
        | some err => exact ⟨r, some err, by simp [readStep, h0, h1, h2, hread], hb⟩
      · by_cases h7 : firstByte line = '7'
        · rcases hread : Batch.zero.BatchTrailer.Read line with ⟨bt, e⟩
          cases e with
          | none =>
            refine ⟨{ r with Batch := modifyLast (fun bb => { bb with BatchTrailer := bt }) r.Batch }, none, ?_, by simp [hb]⟩
            simp [readStep, h0, h1, h2, h7, hread, hb]
          | some err => exact ⟨r, some err, by simp [readStep, h0, h1, h2, h7, hread], hb⟩
        · by_cases h9 : firstByte line = '9'
          · rcases hread : r.FileTrailer.Read line with ⟨ft, e⟩
            exact ⟨{ r with FileTrailer := ft }, e,
              by simp [readStep, h0, h1, h2, h7, h9, hread], hb⟩
          · exact ⟨r, some .unexpectedRecordType,
              by simp [readStep, h0, h1, h2, h7, h9], hb⟩

/-- `ReadAll` from a state with a nonempty batch list never panics. -/
theorem readAll_nonempty_no_panic (lines : List Str) :
    ∀ (r : Reader), r.Batch ≠ [] → ∀ t, r.ReadAll lines ≠ .panic t := by
  induction lines with
  | nil => intro r hb t; simp [Reader.ReadAll]
  | cons line rest ih =>
    intro r hb t
    obtain ⟨r', e, hstep, hb'⟩ := readStep_batch_nonempty hb line
    cases e with
    | none =>
      simp only [Reader.ReadAll, hstep]
      exact ih r' hb' t
    | some err => simp [Reader.ReadAll, hstep]

theorem orderedInput_head2 {l : Str} {rest : List Str}
    (h : OrderedInput (l :: rest)) (h2 : firstByte l = '2') : False := by
  obtain ⟨l1, hmem, -⟩ := h [] l rest rfl h2
  simp at hmem

theorem orderedInput_tail {l : Str} {rest : List Str}
    (h : OrderedInput (l :: rest)) (h1 : firstByte l ≠ '1') : OrderedInput rest := by
  intro pre l2 post heq h2
  obtain ⟨l1, hmem, hl1⟩ := h (l :: pre) l2 post (by simp [heq]) h2
  rcases List.mem_cons.mp hmem with hl | hl
  · exact absurd (hl ▸ hl1) h1
  · exact ⟨l1, hl, hl1⟩

/-- On ordered input — every `'2'` line preceded by a `'1'` line — `ReadAll`
never reaches the record-append with an empty batch list. -/
theorem readAll_ordered_no_record_panic (lines : List Str) :
    ∀ (r : Reader), OrderedInput lines →
      r.ReadAll lines ≠ .panic .recordBranch := by
  induction lines with
  | nil => intro r _; simp [Reader.ReadAll]
  | cons line rest ih =>
    intro r hOrd
    by_cases hb : r.Batch = []
    case neg => exact readAll_nonempty_no_panic (line :: rest) r hb .recordBranch
    by_cases h0 : firstByte line = '0'
    · rcases hread : r.FileHeader.Read line with ⟨fh, e⟩
      cases e with
      | none =>
        simp only [Reader.ReadAll, readStep, h0, if_pos rfl, hread]
        exact ih _ (orderedInput_tail hOrd (by simp [h0]))
      | some err => simp [Reader.ReadAll, readStep, h0, hread]
    · by_cases h1 : firstByte line = '1'
      · rcases hread : Batch.zero.BatchHeader.Read line with ⟨bh, e⟩
        cases e with
        | none =>
          simp only [Reader.ReadAll, readStep, h0, h1, if_pos rfl, hread]
          simp only [if_neg (by simp [h0] : ¬ ('1' = '0'))]
          exact readAll_nonempty_no_panic rest _ (by simp) .recordBranch
        | some err => simp [Reader.ReadAll, readStep, h0, h1, hread]
      · by_cases h2 : firstByte line = '2'
        · exact absurd h2 fun hh => orderedInput_head2 hOrd hh
        · by_cases h7 : firstByte line = '7'
          · rcases hread : Batch.zero.BatchTrailer.Read line with ⟨bt, e⟩
            cases e with
            | none => simp [Reader.ReadAll, readStep, h0, h1, h2, h7, hread, hb]
            | some err => simp [Reader.ReadAll, readStep, h0, h1, h2, h7, hread]
          · by_cases h9 : firstByte line = '9'
            · rcases hread : r.FileTrailer.Read line with ⟨ft, e⟩
              cases e with
              | none =>
                simp only [Reader.ReadAll, readStep, h0, h1, h2, h7, h9, if_pos rfl, hread]
                simp only [if_neg (by simp [h0] : ¬ ('9' = '0')),
                  if_neg (by simp [h1] : ¬ ('9' = '1')), if_neg (by simp [h2] : ¬ ('9' = '2')),
                  if_neg (by simp [h7] : ¬ ('9' = '7'))]
                exact ih _ (orderedInput_tail hOrd (by simp [h1]))
              | some err => simp [Reader.ReadAll, readStep, h0, h1, h2, h7, h9, hread]
            · simp [Reader.ReadAll, readStep, h0, h1, h2, h7, h9]

@[simp] theorem totalDrSum_true (bs : List Batch) : totalDrSum true bs = 0 := by
  simp [totalDrSum, passDrSum]

@[simp] theorem totalCrSum_true (bs : List Batch) : totalCrSum true bs = 0 := by
  simp [totalCrSum, passCrSum]

@[simp] theorem totalDrCount_true (bs : List Batch) : totalDrCount true bs = 0 := by
  simp [totalDrCount, passDrCount]

@[simp] theorem totalCrCount_true (bs : List Batch) : totalCrCount true bs = 0 := by
  simp [totalCrCount, passCrCount]

/-- With batch totals suppressed, every serialized batch trailer carries
zero counts and zero amounts. -/
theorem trailersFrom_obt_true_zero (now : GoTime) (bs : List Batch) :
    ∀ k, ∀ t ∈ trailersFrom true now k bs,
      t.TotalDebitAmount = 0 ∧ t.TotalCreditAmount = 0 ∧
      t.TotalDebitTransactions = 0 ∧ t.TotalCreditTransactions = 0 := by
  induction bs with
  | nil => intro k t ht; simp [trailersFrom] at ht
  | cons b rest ih =>
    intro k t ht
    rcases List.mem_cons.mp ht with rfl | hmem
    · simp [passDrSum, passCrSum, passDrCount, passCrCount]
    · exact ih (k + 1) t hmem

/-- The indicator choice `"CR" unless the net amount is negative` is the
same as `"CR" iff creditSum is at least debitSum`. -/
theorem indicator_if_eq (c d : Decimal) :
    (if c - d < 0 then Debit else Credit) = if d ≤ c then Credit else Debit := by
  rcases le_or_lt d c with hle | hlt
  · rw [if_neg (by rw [sub_neg]; exact not_lt.mpr hle), if_pos hle]
  · rw [if_pos (by rw [sub_neg]; exact hlt), if_neg (not_le.mpr hlt)]

/-! ## Claims -/

set_option maxRecDepth 100000 in
/-- C1 (code bug): encoding a well-formed `FileHeader` whose string fields
fit their column widths and decoding the resulting line does not recover the
fields.  `FileHeader.Write` places the customer number in columns 1–8
(`%08.8s`) while `FileHeader.Read` (and the struct's own position comments)
slice the customer number from columns 1–9 and the following fields one
column later, so the decoded `CustomerNumber` picks up the first character
of the customer name and `CustomerName`/`RemitterName` shift left by one
column. -/
theorem C1_fileHeader_roundtrip_fails :
    (terminate false (FileHeader.Write fhC1)).length = 171 ∧
    (FileHeader.Read FileHeader.zero (terminate false (FileHeader.Write fhC1))).2 = none ∧
    (FileHeader.Read FileHeader.zero (terminate false (FileHeader.Write fhC1))).1.CustomerNumber = "12345678A".toList ∧
    (FileHeader.Read FileHeader.zero (terminate false (FileHeader.Write fhC1))).1.CustomerNumber ≠ fhC1.CustomerNumber ∧
    (FileHeader.Read FileHeader.zero (terminate false (FileHeader.Write fhC1))).1.CustomerName ≠ fhC1.CustomerName ∧
    (FileHeader.Read FileHeader.zero (terminate false (FileHeader.Write fhC1))).1.RemitterName ≠ fhC1.RemitterName := by
  decide

set_option maxRecDepth 100000 in
/-- C3 counterexample: a record whose indicator is `XX` is not
logged-and-kept — `Writer.Write` aborts with the indexed invalid-record
error before the record line is written, and no batch trailer is ever
serialized, contradicting the claim that the write continues. -/
theorem C3_unknown_indicator_is_not_skipped :
    (wXX.Write ⟨20170123⟩).2.2.2 = some (.invalidRecordAt 0) ∧
    (wXX.Write ⟨20170123⟩).2.1 = [] := by
  decide

/-- C3 (amended): a record whose indicator is outside `{DR, CR}` fails
`IsValid`, so when the per-record loop reaches it the whole write aborts
with that record's index: its line is not emitted and no totals are
updated.  The `default:` logging branch of the indicator switch is
unreachable, because `IsValid` is checked first. -/
theorem C3_invalid_indicator_aborts (obt crlf : Bool) (r : Record)
    (rest : List Record) (h1 : r.Indicator ≠ Debit) (h2 : r.Indicator ≠ Credit)
    (i : Nat) (ft : FileTrailer) (bdc bcc : Int) (bdt bct : Decimal) :
    r.IsValid = false ∧
    writeRecords obt crlf (r :: rest) i ft bdc bcc bdt bct =
      ([], ft, bdc, bcc, bdt, bct, some i) := by
  have hv : r.IsValid = false := by
    unfold Record.IsValid
    rw [if_neg]
    push_neg
    exact ⟨h2, h1⟩
  refine ⟨hv, ?_⟩
  simp [writeRecords, hv]

/-- Witness for C3: the amended statement at the concrete record `recXX`. -/
theorem C3_invalid_indicator_aborts_witness :
    recXX.IsValid = false ∧
    writeRecords false false [recXX] 0 FileTrailer.zero 0 0 0 0 =
      ([], FileTrailer.zero, 0, 0, 0, 0, some 0) :=
  C3_invalid_indicator_aborts false false recXX [] (by decide) (by decide)
    0 FileTrailer.zero 0 0 0 0

set_option maxRecDepth 100000 in
/-- C4 counterexample: on a batch-header line followed by an invalid
transaction-record line followed by a further valid record line, `ReadAll`
stops at the invalid record: it returns the batches read so far with the
invalid-record error, and the subsequent valid line is never processed —
contradicting the claim that the read of the remaining input continues. -/
theorem C4_invalid_record_stops_readAll :
    Reader.ReadAll Reader.zero [lineBH, lineRecInvalid, lineRecValid] =
      .done [Batch.zero] (some .invalidRecord) { Reader.zero with Batch := [Batch.zero] } := by
  decide

/-- C4 (amended): when a `'2'` line decodes to a record that fails the
validity predicate, the record is dropped (the batch list is unchanged) and
the invalid-record error is reported, but `ReadAll` stops right there: the
batches read so far are returned and the remaining lines are not
processed. -/
theorem C4_invalid_record_aborts_read (r : Reader) (line : Str) (rest : List Str)
    (h2 : firstByte line = '2')
    (hinv : (Record.zero.Read line).2 = some .invalidRecord) :
    r.ReadAll (line :: rest) = .done r.Batch (some .invalidRecord) r := by
  rcases hread : Record.zero.Read line with ⟨rec, e⟩
  have he : e = some .invalidRecord := by rw [hread] at hinv; exact hinv
  subst he
  simp [Reader.ReadAll, readStep, h2, hread]

set_option maxRecDepth 100000 in
/-- Witness for C4: the amended statement at a concrete invalid record line
followed by a valid one. -/
theorem C4_invalid_record_aborts_read_witness :
    Reader.ReadAll Reader.zero [lineRecInvalid, lineRecValid] =
      .done Reader.zero.Batch (some .invalidRecord) Reader.zero :=
  C4_invalid_record_aborts_read Reader.zero lineRecInvalid [lineRecValid]
    (by decide) (by decide)

/-- C7: `Writer.Write` on a writer with an empty batch list returns the
insufficient-batches error and emits nothing at all — no header, no
trailer, no state change. -/
theorem C7_empty_batch_list (w : Writer) (now : GoTime) (h : w.Batch = []) :
    w.Write now = ([], [], w, some .insufficientBatches) := by
  rw [Writer.Write, if_pos (by simp [h])]

/-- Witness for C7 at a concrete writer with no batches. -/
theorem C7_empty_batch_list_witness :
    wEmpty.Batch = [] ∧
    wEmpty.Write ⟨20170123⟩ = ([], [], wEmpty, some .insufficientBatches) :=
  ⟨rfl, C7_empty_batch_list wEmpty ⟨20170123⟩ rfl⟩

set_option maxRecDepth 100000 in
/-- C9: a well-formed, valid transaction-record line arriving before any
batch header makes the reader's append index out of the still-empty batch
list (a runtime panic); and whenever a `'1'` line precedes every `'2'` line
of the input, that append never runs on an empty batch list. -/
theorem C9_record_before_batch_panics :
    Reader.ReadAll Reader.zero [lineRecValid] = .panic .recordBranch ∧
    ∀ lines, OrderedInput lines → Reader.ReadAll Reader.zero lines ≠ .panic .recordBranch :=
  ⟨by decide, fun lines h => readAll_ordered_no_record_panic lines Reader.zero h⟩

/-- Witness for C9: on a concrete ordered input (a `'1'` line, then a `'2'`
line) the reader does not hit the record-branch panic. -/
theorem C9_record_before_batch_panics_witness :
    Reader.ReadAll Reader.zero [lineBH, lineRecValid] ≠ .panic .recordBranch :=
  C9_record_before_batch_panics.2 [lineBH, lineRecValid] (by
    intro pre l2 post heq hfirst
    cases pre with
    | nil =>
      rw [List.nil_append] at heq
      injection heq with hhead _
      rw [← hhead] at hfirst
      exact absurd hfirst (by decide)
    | cons x pre' =>
      rw [List.cons_append] at heq
      injection heq with hhead _
      exact ⟨x, by simp, by rw [← hhead]; decide⟩)

/-- C8: each record kind's `Read` fails with its dedicated "bad <kind>"
error exactly when the input line length differs from width+1 and width+2
(File Header / Batch Header / Batch Trailer / File Trailer: 171 and 172 for
width 170; Transaction Record: 169 and 170 for width 168) — in particular
it never reports a length error on a line of the right length. -/
theorem C8_length_contract (l : Str) (fh : FileHeader) (bh : BatchHeader)
    (r : Record) (bt : BatchTrailer) (ft : FileTrailer) :
    ((fh.Read l).2 = some .badFileHeader ↔ ¬ (l.length = 171 ∨ l.length = 172)) ∧
    ((bh.Read l).2 = some .badBatchHeader ↔ ¬ (l.length = 171 ∨ l.length = 172)) ∧
    ((r.Read l).2 = some .badRecord ↔ ¬ (l.length = 169 ∨ l.length = 170)) ∧
    ((bt.Read l).2 = some .badBatchTrailer ↔ ¬ (l.length = 171 ∨ l.length = 172)) ∧
    ((ft.Read l).2 = some .badFileTrailer ↔ ¬ (l.length = 171 ∨ l.length = 172)) := by
  refine ⟨?_, ?_, ?_, ?_, ?_⟩
  · by_cases hC : l.length ≠ 171 ∧ l.length ≠ 172
    · rw [FileHeader.Read, if_pos hC]
      simp
      omega
    · rw [FileHeader.Read, if_neg hC]
      simp
      omega
  · by_cases hC : l.length ≠ 171 ∧ l.length ≠ 172
    · rw [BatchHeader.Read, if_pos hC]
      simp
      omega
    · rw [BatchHeader.Read, if_neg hC]
      simp
      omega
  · by_cases hC : l.length ≠ 169 ∧ l.length ≠ 170
    · rw [Record.Read, if_pos hC]
      simp
      omega
    · rw [Record.Read, if_neg hC]
      have hlen : l.length = 169 ∨ l.length = 170 := by omega
      simp only [hlen, not_true_eq_false, iff_false]
      intro hcontra
      split at hcontra <;> simp at hcontra
  · by_cases hC : l.length ≠ 171 ∧ l.length ≠ 172
    · rw [BatchTrailer.Read, if_pos hC]
      simp
      omega
    · rw [BatchTrailer.Read, if_neg hC]
      simp
      omega
  · by_cases hC : l.length ≠ 171 ∧ l.length ≠ 172
    · rw [FileTrailer.Read, if_pos hC]
      simp
      omega
    · rw [FileTrailer.Read, if_neg hC]
      simp
      omega

set_option maxRecDepth 100000 in
/-- Witness for C8 at a concrete line of each relevant length: on a
169-byte line the Transaction Record codec reports no length error while
the four 170-wide kinds do, and on a 171-byte line the reverse holds. -/
theorem C8_length_contract_witness :
    ¬ ((Record.zero.Read lineRecValid).2 = some .badRecord) ∧
    ((FileHeader.zero.Read lineRecValid).2 = some .badFileHeader) ∧
    ¬ ((FileHeader.zero.Read lineBH).2 = some .badFileHeader) ∧
    ((Record.zero.Read lineBH).2 = some .badRecord) :=
  ⟨fun h => ((C8_length_contract lineRecValid FileHeader.zero BatchHeader.zero
      Record.zero BatchTrailer.zero FileTrailer.zero).2.2.1.mp h) (by decide),
   (C8_length_contract lineRecValid FileHeader.zero BatchHeader.zero
      Record.zero BatchTrailer.zero FileTrailer.zero).1.mpr (by decide),
   fun h => ((C8_length_contract lineBH FileHeader.zero BatchHeader.zero
      Record.zero BatchTrailer.zero FileTrailer.zero).1.mp h) (by decide),
   (C8_length_contract lineBH FileHeader.zero BatchHeader.zero
      Record.zero BatchTrailer.zero FileTrailer.zero).2.2.1.mpr (by decide)⟩

/-- C2: for a batch of valid records written with `OmitBatchTotals` false,
the serialized batch trailer of the batch at index `j` carries the sum of
the batch's `DR` amounts as its debit total and the sum of its `CR` amounts
as its credit total, `|creditSum - debitSum|` as its amount, indicator `CR`
exactly when the credit sum is at least the debit sum, and the batch's
zero-based index as its reference number. -/
theorem C2_batch_trailer_totals (w : Writer) (now : GoTime)
    (hobt : w.OmitBatchTotals = false)
    (hv : ∀ b ∈ w.Batch, ∀ r ∈ b.Records, r.IsValid)
    (hne : w.Batch ≠ []) (j : Nat) (b : Batch) (hj : w.Batch.get? j = some b) :
    (w.Write now).2.2.2 = none ∧
    ((w.Write now).2.1.get? j).map BatchTrailer.TotalDebitAmount = some (drSum b.Records) ∧
    ((w.Write now).2.1.get? j).map BatchTrailer.TotalCreditAmount = some (crSum b.Records) ∧
    ((w.Write now).2.1.get? j).map BatchTrailer.Amount =
      some |crSum b.Records - drSum b.Records| ∧
    ((w.Write now).2.1.get? j).map BatchTrailer.Indicator =
      some (if drSum b.Records ≤ crSum b.Records then Credit else Debit) ∧
    ((w.Write now).2.1.get? j).map BatchTrailer.ReferenceNumber = some (j : Int) := by
  have hj' : w.Batch[j]? = some b := by rw [← List.get?_eq_getElem?]; exact hj
  rw [write_valid w now hv hne, hobt]
  refine ⟨rfl, ?_, ?_, ?_, ?_, ?_⟩
  · simp [List.get?_eq_getElem?, trailersFrom_getElem?, hj']
  · simp [List.get?_eq_getElem?, trailersFrom_getElem?, hj']
  · simp [List.get?_eq_getElem?, trailersFrom_getElem?, hj']
  · simp [List.get?_eq_getElem?, trailersFrom_getElem?, hj', mkTrailerFor_Indicator,
      indicator_if_eq]
    rcases le_or_lt (drSum b.Records) (crSum b.Records) with hle | hlt
    · rw [if_neg (not_lt.mpr hle), if_pos hle]
    · rw [if_pos hlt, if_neg (not_le.mpr hlt)]
  · simp [List.get?_eq_getElem?, trailersFrom_getElem?, hj']

set_option maxRecDepth 100000 in
/-- Witness for C2 at a concrete one-batch writer holding one debit of 5
and one credit of 3. -/
theorem C2_batch_trailer_totals_witness :
    (wDemo.Write ⟨20170123⟩).2.2.2 = none ∧
    ((wDemo.Write ⟨20170123⟩).2.1.get? 0).map BatchTrailer.TotalDebitAmount =
      some (drSum [recDR, recCR]) ∧
    ((wDemo.Write ⟨20170123⟩).2.1.get? 0).map BatchTrailer.TotalCreditAmount =
      some (crSum [recDR, recCR]) ∧
    ((wDemo.Write ⟨20170123⟩).2.1.get? 0).map BatchTrailer.Amount =
      some |crSum [recDR, recCR] - drSum [recDR, recCR]| ∧
    ((wDemo.Write ⟨20170123⟩).2.1.get? 0).map BatchTrailer.Indicator =
      some (if drSum [recDR, recCR] ≤ crSum [recDR, recCR] then Credit else Debit) ∧
    ((wDemo.Write ⟨20170123⟩).2.1.get? 0).map BatchTrailer.ReferenceNumber = some (0 : Int) :=
  C2_batch_trailer_totals wDemo ⟨20170123⟩ rfl (by decide) (by decide) 0
    { NewBatch ⟨20170123⟩ with Records := [recDR, recCR] } (by decide)

/-- C5: starting from zero file-trailer totals over batches of valid
records — when `OmitBatchTotals` is false, each of the four file-trailer
totals equals the sum of the corresponding field over the serialized batch
trailers; when it is true, the totals of every batch trailer and of the
file trailer are all zero. -/
theorem C5_file_totals (w : Writer) (now : GoTime)
    (hz : w.FileTrailer.TotalDebitAmount = 0 ∧ w.FileTrailer.TotalCreditAmount = 0 ∧
      w.FileTrailer.TotalDebitTransactions = 0 ∧ w.FileTrailer.TotalCreditTransactions = 0)
    (hv : ∀ b ∈ w.Batch, ∀ r ∈ b.Records, r.IsValid) (hne : w.Batch ≠ []) :
    (w.Write now).2.2.2 = none ∧
    (w.OmitBatchTotals = false →
      ((w.Write now).2.2.1.FileTrailer.TotalDebitAmount =
        (((w.Write now).2.1).map BatchTrailer.TotalDebitAmount).sum ∧
       (w.Write now).2.2.1.FileTrailer.TotalCreditAmount =
        (((w.Write now).2.1).map BatchTrailer.TotalCreditAmount).sum ∧
       (w.Write now).2.2.1.FileTrailer.TotalDebitTransactions =
        (((w.Write now).2.1).map BatchTrailer.TotalDebitTransactions).sum ∧
       (w.Write now).2.2.1.FileTrailer.TotalCreditTransactions =
        (((w.Write now).2.1).map BatchTrailer.TotalCreditTransactions).sum)) ∧
    (w.OmitBatchTotals = true →
      ((∀ t ∈ (w.Write now).2.1,
         t.TotalDebitAmount = 0 ∧ t.TotalCreditAmount = 0 ∧
         t.TotalDebitTransactions = 0 ∧ t.TotalCreditTransactions = 0) ∧
       (w.Write now).2.2.1.FileTrailer.TotalDebitAmount = 0 ∧
       (w.Write now).2.2.1.FileTrailer.TotalCreditAmount = 0 ∧
       (w.Write now).2.2.1.FileTrailer.TotalDebitTransactions = 0 ∧
       (w.Write now).2.2.1.FileTrailer.TotalCreditTransactions = 0)) := by
  obtain ⟨hz1, hz2, hz3, hz4⟩ := hz
  rw [write_valid w now hv hne]
  refine ⟨rfl, fun hobt => ?_, fun hobt => ?_⟩
  · rw [hobt] at *
    simp [addAllFT_eq, hz1, hz2, hz3, hz4,
      trailersFrom_map_TotalDebitAmount, trailersFrom_map_TotalCreditAmount,
      trailersFrom_map_TotalDebitTransactions, trailersFrom_map_TotalCreditTransactions,
      totalDrSum, totalCrSum, totalDrCount, totalCrCount]
  · rw [hobt] at *
    refine ⟨fun t ht => trailersFrom_obt_true_zero now w.Batch 0 t ht, ?_, ?_, ?_, ?_⟩ <;>
      simp [addAllFT_eq, hz1, hz2, hz3, hz4]

set_option maxRecDepth 100000 in
/-- Witness for C5 at two concrete writers, one per flag value. -/
theorem C5_file_totals_witness :
    ((wDemo.Write ⟨20170123⟩).2.2.1.FileTrailer.TotalDebitAmount =
      (((wDemo.Write ⟨20170123⟩).2.1).map BatchTrailer.TotalDebitAmount).sum) ∧
    ((wOmit.Write ⟨20170123⟩).2.2.1.FileTrailer.TotalDebitAmount = 0) :=
  ⟨((C5_file_totals wDemo ⟨20170123⟩ ⟨rfl, rfl, rfl, rfl⟩ (by decide) (by decide)).2.1 rfl).1,
   ((C5_file_totals wOmit ⟨20170123⟩ ⟨rfl, rfl, rfl, rfl⟩ (by decide) (by decide)).2.2 rfl).2.1⟩

/-- C10: a successful `Writer.Write` leaves every caller-visible part of the
writer unchanged — flags, file header, and the whole batch list (batch
trailers are only computed on a per-iteration copy) — except the four
file-trailer totals, which each grow by this pass's sums; a second `Write`
on the resulting writer succeeds and adds the same sums once more (doubling
the totals when the first call started from zero). -/
theorem C10_write_frame (w : Writer) (now : GoTime)
    (hv : ∀ b ∈ w.Batch, ∀ r ∈ b.Records, r.IsValid) (hne : w.Batch ≠ []) :
    (w.Write now).2.2.2 = none ∧
    (w.Write now).2.2.1.OmitBatchTotals = w.OmitBatchTotals ∧
    (w.Write now).2.2.1.CRLFLineEndings = w.CRLFLineEndings ∧
    (w.Write now).2.2.1.FileHeader = w.FileHeader ∧
    (w.Write now).2.2.1.Batch = w.Batch ∧
    (w.Write now).2.2.1.FileTrailer.recordType = w.FileTrailer.recordType ∧
    (w.Write now).2.2.1.FileTrailer.CustomerNumber = w.FileTrailer.CustomerNumber ∧
    (w.Write now).2.2.1.FileTrailer.CustomerName = w.FileTrailer.CustomerName ∧
    (w.Write now).2.2.1.FileTrailer.TotalDebitAmount =
      w.FileTrailer.TotalDebitAmount + totalDrSum w.OmitBatchTotals w.Batch ∧
    (w.Write now).2.2.1.FileTrailer.TotalCreditAmount =
      w.FileTrailer.TotalCreditAmount + totalCrSum w.OmitBatchTotals w.Batch ∧
    (w.Write now).2.2.1.FileTrailer.TotalDebitTransactions =
      w.FileTrailer.TotalDebitTransactions + totalDrCount w.OmitBatchTotals w.Batch ∧
    (w.Write now).2.2.1.FileTrailer.TotalCreditTransactions =
      w.FileTrailer.TotalCreditTransactions + totalCrCount w.OmitBatchTotals w.Batch ∧
    ((w.Write now).2.2.1.Write now).2.2.2 = none ∧
    ((w.Write now).2.2.1.Write now).2.2.1.FileTrailer.TotalDebitAmount =
      w.FileTrailer.TotalDebitAmount +
        totalDrSum w.OmitBatchTotals w.Batch + totalDrSum w.OmitBatchTotals w.Batch ∧
    ((w.Write now).2.2.1.Write now).2.2.1.FileTrailer.TotalCreditAmount =
      w.FileTrailer.TotalCreditAmount +
        totalCrSum w.OmitBatchTotals w.Batch + totalCrSum w.OmitBatchTotals w.Batch ∧
    ((w.Write now).2.2.1.Write now).2.2.1.FileTrailer.TotalDebitTransactions =
      w.FileTrailer.TotalDebitTransactions +
        totalDrCount w.OmitBatchTotals w.Batch + totalDrCount w.OmitBatchTotals w.Batch ∧
    ((w.Write now).2.2.1.Write now).2.2.1.FileTrailer.TotalCreditTransactions =
      w.FileTrailer.TotalCreditTransactions +
        totalCrCount w.OmitBatchTotals w.Batch + totalCrCount w.OmitBatchTotals w.Batch := by
  have h1 := write_valid w now hv hne
  have h2 := write_valid
    { w with FileTrailer := addAllFT w.OmitBatchTotals w.FileTrailer w.Batch } now hv hne
  rw [h1]
  simp only []
  rw [h2]
  simp [addAllFT_eq]

set_option maxRecDepth 100000 in
/-- Witness for C10 at the concrete writer `wDemo`. -/
theorem C10_write_frame_witness :
    (wDemo.Write ⟨20170123⟩).2.2.2 = none ∧
    (wDemo.Write ⟨20170123⟩).2.2.1.Batch = wDemo.Batch ∧
    (wDemo.Write ⟨20170123⟩).2.2.1.FileTrailer.TotalDebitAmount =
      wDemo.FileTrailer.TotalDebitAmount + totalDrSum wDemo.OmitBatchTotals wDemo.Batch := by
  obtain ⟨h1, -, -, -, h5, -, -, -, h9, -⟩ :=
    C10_write_frame wDemo ⟨20170123⟩ (by decide) (by decide)
  exact ⟨h1, h5, h9⟩

/-- C6: when every record of the batches before batch `k` is valid and the
records of batch `k` are valid up to position `pre.length` where an invalid
record sits, `Writer.Write` aborts with the invalid-record error carrying
that record's index within its batch, and the output is exactly the file
header line, the full batches before `k`, batch `k`'s header line, and the
record lines before the invalid one — no later record of the file is
written. -/
theorem C6_first_invalid_record_aborts (w : Writer) (now : GoTime)
    (bs1 : List Batch) (bk : Batch) (bs2 : List Batch)
    (pre : List Record) (bad : Record) (post : List Record)
    (hsplit : w.Batch = bs1 ++ bk :: bs2)
    (hrec : bk.Records = pre ++ bad :: post)
    (hprev : ∀ b ∈ bs1, ∀ r ∈ b.Records, r.IsValid)
    (hpre : ∀ r ∈ pre, r.IsValid)
    (hbad : ¬ bad.IsValid) :
    (w.Write now).2.2.2 = some (.invalidRecordAt pre.length) ∧
    (w.Write now).1 =
      terminate w.CRLFLineEndings w.FileHeader.Write ::
        (batchesLines w.OmitBatchTotals w.CRLFLineEndings now 0 bs1 ++
         terminate w.CRLFLineEndings bk.BatchHeader.Write ::
           pre.map (recLine w.CRLFLineEndings)) := by
  have hlen : ¬ w.Batch.length < 1 := by rw [hsplit]; simp
  rw [Writer.Write, if_neg hlen, hsplit,
    writeBatches_append_valid w.OmitBatchTotals w.CRLFLineEndings now bs1 (bk :: bs2)
      hprev 0 w.FileTrailer]
  simp only [writeBatches, hrec,
    writeRecords_firstInvalid w.OmitBatchTotals w.CRLFLineEndings pre bad post hpre hbad 0
      (addAllFT w.OmitBatchTotals w.FileTrailer bs1) 0 0 0 0]
  simp

set_option maxRecDepth 100000 in
/-- Witness for C6 at the concrete writer `wMixed`, whose single batch holds
a valid record, then the invalid `recXX`, then another valid record. -/
theorem C6_first_invalid_record_aborts_witness :
    (wMixed.Write ⟨20170123⟩).2.2.2 = some (.invalidRecordAt [recDR].length) ∧
    (wMixed.Write ⟨20170123⟩).1 =
      terminate wMixed.CRLFLineEndings wMixed.FileHeader.Write ::
        (batchesLines wMixed.OmitBatchTotals wMixed.CRLFLineEndings ⟨20170123⟩ 0 [] ++
         terminate wMixed.CRLFLineEndings
           ({ NewBatch ⟨20170123⟩ with Records := [recDR, recXX, recCR] }).BatchHeader.Write ::
           [recDR].map (recLine wMixed.CRLFLineEndings)) :=
  C6_first_invalid_record_aborts wMixed ⟨20170123⟩ []
    { NewBatch ⟨20170123⟩ with Records := [recDR, recXX, recCR] } []
    [recDR] recXX [recCR] rfl rfl (by decide) (by decide) (by decide)

end Txn
